import Mathlib

/-!
# Verification of the combat-resolution core of `theone`

A shallow embedding, in Lean 4, of the combat engine of the repository:
`CombatService` (encounter initialization, initiative, attack resolution,
damage parsing, end-of-combat detection), the turn-skipping loop of
`CombatTurnManager`, and the healing paths of the character store.

Randomness: every `Math.random()`-based die roll is modelled by an
injectable die source.  `rng pos sides : Int` is the outcome of the
`pos`-th random call of the function under consideration when that call
rolls a `sides`-sided die (the code computes
`Math.floor(Math.random() * sides) + 1`, whose value lies in `[1, sides]`;
theorems that need this range state it as a hypothesis).  Sequential
consumption of rolls is modelled by threading the position `pos`.

JavaScript numbers that the code only ever uses as integers are modelled
as `Int` (or `Nat` for counts and indices).  `Math.floor(a / b)` for a
positive integer literal `b` is euclidean division `a / b` on `Int`, and
`Math.ceil(a / b)` is `-((-a) / b)`.
-/

/-- An injectable die source: `rng pos sides` is the result of the
`pos`-th random roll when it is a roll of a `sides`-sided die. -/
abbrev DieSource : Type := Nat → Nat → Int

/-- Modelled from the spec: `getModifier` is imported from
`src/utils/calculations`, which is not among the provided sources; the
spec defines `abilityModifier(score)` as `floor((score - 10) / 2)`.
Euclidean division by the positive constant `2` is floor division. -/
def getModifier (score : Int) : Int := (score - 10) / 2

/-! ## Combat Outcome Evaluator (`CombatService.checkCombatEnd`) -/

/-- A combatant as inspected by the outcome evaluator and the turn
sequencer: only its current hit points are read. -/
structure Creature where
  currentHP : Int
  deriving Repr, DecidableEq

/-- The two terminal outcomes `'victory'` and `'defeat'`; `null` is
`Option.none` at the use site. -/
inductive CombatEnd where
  | victory
  | defeat
  deriving Repr, DecidableEq

/-- Embeds `CombatService.isDefeated`: `character.currentHP <= 0`. -/
def isDefeated (character : Creature) : Bool := character.currentHP ≤ 0

/-- The companion clause of `checkCombatEnd`:
`playerCompanion ? this.isDefeated(playerCompanion) : true`. -/
def companionDefeated : Option Creature → Bool
  | some c => isDefeated c
  | none => true

/-- Embeds `CombatService.checkCombatEnd`: `'defeat'` when player and companion
are both down, otherwise `'victory'` when every enemy is down, otherwise
`null`. -/
def checkCombatEnd (playerCharacter : Creature) (playerCompanion : Option Creature)
    (enemies : List Creature) : Option CombatEnd :=
  let playerDefeated := isDefeated playerCharacter
  let compDefeated := companionDefeated playerCompanion
  let allEnemiesDefeated := enemies.all isDefeated
  if playerDefeated && compDefeated then some .defeat
  else if allEnemiesDefeated then some .victory
  else none

/-! ## Turn sequencer loop (`CombatTurnManager.skipToNextAliveCombatant`) -/

/-- Whether `turnOrder[i]` exists and is alive:
`nextCombatant && nextCombatant.currentHP > 0`. -/
def aliveAt (turnOrder : List Creature) (i : Nat) : Bool :=
  match turnOrder[i]? with
  | some c => decide (0 < c.currentHP)
  | none => false

/-- The `do … while` loop of `skipToNextAliveCombatant`
(`CombatTurnManager.jsx`): `idx` and `attempts` are the loop variables
`nextIndex` and `attempts`, and `maxAttempts` is `turnOrder.length` at the
call site.  Each iteration advances the index modulo the length, bumps the
counter, gives up with `null` once the counter reaches `maxAttempts`, and
otherwise returns the new index when the combatant there is alive.  (The
`while (attempts < maxAttempts)` guard at the bottom of the JS loop is
always true when reached, because the `attempts >= maxAttempts` early
return already fired otherwise.) -/
def skipLoop (turnOrder : List Creature) (idx attempts maxAttempts : Nat) : Option Nat :=
  let nextIndex := (idx + 1) % turnOrder.length
  if h : attempts + 1 ≥ maxAttempts then none
  else if aliveAt turnOrder nextIndex then some nextIndex
  else skipLoop turnOrder nextIndex (attempts + 1) maxAttempts
termination_by maxAttempts - attempts
decreasing_by omega

/-- Embeds `CombatTurnManager.skipToNextAliveCombatant`, with the component state
(`currentTurn`, `turnOrder`) passed explicitly. -/
def skipToNextAliveCombatant (turnOrder : List Creature) (currentTurn : Nat) : Option Nat :=
  skipLoop turnOrder currentTurn 0 turnOrder.length

/-- One-step unfolding of `skipLoop` (the definition is by well-founded
recursion, so this equation is proved rather than definitional). -/
theorem skipLoop_eq (turnOrder : List Creature) (idx attempts maxAttempts : Nat) :
    skipLoop turnOrder idx attempts maxAttempts =
      if attempts + 1 ≥ maxAttempts then none
      else if aliveAt turnOrder ((idx + 1) % turnOrder.length) then
        some ((idx + 1) % turnOrder.length)
      else skipLoop turnOrder ((idx + 1) % turnOrder.length) (attempts + 1) maxAttempts := by
  rw [skipLoop]
  rfl

/-- C1: counterexample.  With the player at 0 HP, no companion, and a
single enemy also at 0 HP, every enemy is defeated, yet `checkCombatEnd`
returns `'defeat'` and not `'victory'` (the defeat branch is tested
first); so the claimed biconditional "returns victory iff every enemy's
currentHP ≤ 0" is false at this input. -/
theorem C1_checkCombatEnd_counterexample :
    (([⟨0⟩] : List Creature).all isDefeated = true) ∧
      checkCombatEnd ⟨0⟩ none [⟨0⟩] = some .defeat ∧
      ¬ checkCombatEnd ⟨0⟩ none [⟨0⟩] = some .victory := by
  refine ⟨rfl, rfl, by decide⟩

/-- C1 (amended): `checkCombatEnd` returns `'defeat'` iff the player has
currentHP ≤ 0 and (there is no companion or the companion has
currentHP ≤ 0); it returns `'victory'` iff every enemy has currentHP ≤ 0
and the defeat condition does not also hold (when both conditions hold,
`'defeat'` wins); and it returns a continuing result (`null`) otherwise.
The victory and defeat results are never both reported. -/
theorem C1_checkCombatEnd_amended (p : Creature) (comp : Option Creature)
    (es : List Creature) :
    (checkCombatEnd p comp es = some .defeat ↔
        (isDefeated p && companionDefeated comp) = true) ∧
    (checkCombatEnd p comp es = some .victory ↔
        (es.all isDefeated = true ∧ ¬ (isDefeated p && companionDefeated comp) = true)) ∧
    (checkCombatEnd p comp es = none ↔
        (¬ es.all isDefeated = true ∧ ¬ (isDefeated p && companionDefeated comp) = true)) := by
  unfold checkCombatEnd
  by_cases h1 : (isDefeated p && companionDefeated comp) = true <;>
    by_cases h2 : es.all isDefeated = true <;>
      simp [h1, h2]

/-- If `skipLoop` answers `some j`, the combatant at `j` is alive (and in
particular `j` is a valid index of the turn order). -/
theorem skipLoop_some_alive (turnOrder : List Creature) :
    ∀ fuel idx attempts maxAttempts j, maxAttempts - attempts = fuel →
      skipLoop turnOrder idx attempts maxAttempts = some j →
      aliveAt turnOrder j = true ∧ j < turnOrder.length := by
  intro fuel
  induction fuel with
  | zero =>
    intro idx attempts maxAttempts j hfuel hres
    rw [skipLoop_eq] at hres
    have : attempts + 1 ≥ maxAttempts := by omega
    simp [this] at hres
  | succ n ih =>
    intro idx attempts maxAttempts j hfuel hres
    rw [skipLoop_eq] at hres
    by_cases hstop : attempts + 1 ≥ maxAttempts
    · simp [hstop] at hres
    · simp only [hstop, if_false, ge_iff_le, if_neg] at hres
      by_cases halive : aliveAt turnOrder ((idx + 1) % turnOrder.length) = true
      · rw [if_pos halive] at hres
        cases hres
        refine ⟨halive, ?_⟩
        have hlen : 0 < turnOrder.length := by
          by_contra hl
          have hnil : turnOrder = [] := by
            cases turnOrder
            · rfl
            · simp at hl
          rw [hnil] at halive
          simp [aliveAt] at halive
        exact Nat.mod_lt _ hlen
      · rw [if_neg halive] at hres
        exact ih _ _ _ _ (by omega) hres

/-- The loop answers `none` exactly when every index it still gets to
inspect (the `maxAttempts - attempts - 1` cyclic successors of `idx`)
holds a defeated combatant. -/
theorem skipLoop_none_iff (turnOrder : List Creature) :
    ∀ fuel idx attempts maxAttempts, maxAttempts - attempts = fuel →
      (skipLoop turnOrder idx attempts maxAttempts = none ↔
        ∀ k, 1 ≤ k → k + attempts + 1 ≤ maxAttempts →
          aliveAt turnOrder ((idx + k) % turnOrder.length) = false) := by
  intro fuel
  induction fuel with
  | zero =>
    intro idx attempts maxAttempts hfuel
    have hstop : attempts + 1 ≥ maxAttempts := by omega
    rw [skipLoop_eq, if_pos hstop]
    constructor
    · intro _ k hk1 hk2
      omega
    · intro _
      rfl
  | succ n ih =>
    intro idx attempts maxAttempts hfuel
    by_cases hstop : attempts + 1 ≥ maxAttempts
    · rw [skipLoop_eq, if_pos hstop]
      constructor
      · intro _ k hk1 hk2
        omega
      · intro _
        rfl
    · rw [skipLoop_eq, if_neg hstop]
      by_cases halive : aliveAt turnOrder ((idx + 1) % turnOrder.length) = true
      · rw [if_pos halive]
        constructor
        · intro h
          exact absurd h (by simp)
        · intro hall
          have h1 := hall 1 (by omega) (by omega)
          simp [h1] at halive
      · rw [if_neg halive]
        rw [ih ((idx + 1) % turnOrder.length) (attempts + 1) maxAttempts (by omega)]
        constructor
        · intro hall k hk1 hk2
          rcases Nat.lt_or_ge k 2 with hk | hk
          · have : k = 1 := by omega
            subst this
            simpa using (Bool.eq_false_iff.mpr (by simpa using halive))
          · have := hall (k - 1) (by omega) (by omega)
            rw [Nat.mod_add_mod] at this
            have harith : (idx + 1) + (k - 1) = idx + k := by omega
            rwa [harith] at this
        · intro hall k hk1 hk2
          have := hall (k + 1) (by omega) (by omega)
          rw [Nat.mod_add_mod]
          have harith : (idx + 1) + k = idx + (k + 1) := by omega
          rwa [harith]

/-- C2: counterexample.  In a one-element turn order whose single
combatant is alive at the current index, `skipToNextAliveCombatant`
returns `null` (the attempt counter reaches the length before the loop
ever inspects the starting index itself), although a living combatant is
present in the turn order; so "returns null only when every combatant in
the turn order is defeated" is false at this input. -/
theorem C2_skipToNextAlive_counterexample :
    skipToNextAliveCombatant [⟨5⟩] 0 = none ∧
      ∃ c ∈ ([⟨5⟩] : List Creature), 0 < c.currentHP := by
  constructor
  · rw [skipToNextAliveCombatant, skipLoop_eq]
    simp
  · exact ⟨⟨5⟩, by simp, by decide⟩

/-- C2 (amended): from any starting index, the skip loop terminates (it is
a total function evaluated within `turnOrder.length` iterations); any
index it returns holds a living combatant; and it returns `null` exactly
when every combatant at the `turnOrder.length - 1` cyclic successors of
the starting index — every position of the turn order except the starting
index itself — is defeated.  (The combatant at the starting index is never
inspected, which is how the counterexample arises.) -/
theorem C2_skipToNextAlive_amended (turnOrder : List Creature) (start : Nat)
    (h : 0 < turnOrder.length) :
    (∀ j, skipToNextAliveCombatant turnOrder start = some j →
        aliveAt turnOrder j = true ∧ j < turnOrder.length) ∧
    (skipToNextAliveCombatant turnOrder start = none ↔
        ∀ k, 1 ≤ k → k < turnOrder.length →
          aliveAt turnOrder ((start + k) % turnOrder.length) = false) := by
  constructor
  · intro j hj
    exact skipLoop_some_alive turnOrder (turnOrder.length - 0) start 0 turnOrder.length j
      rfl hj
  · rw [skipToNextAliveCombatant,
      skipLoop_none_iff turnOrder (turnOrder.length - 0) start 0 turnOrder.length rfl]
    constructor
    · intro hall k hk1 hk2
      exact hall k hk1 (by omega)
    · intro hall k hk1 hk2
      exact hall k hk1 (by omega)

/-- C2 (amended), witness: a two-element turn order with the first
combatant defeated and the second alive, starting at index 0. -/
theorem C2_skipToNextAlive_amended_witness :
    (∀ j, skipToNextAliveCombatant [⟨0⟩, ⟨3⟩] 0 = some j →
        aliveAt [⟨0⟩, ⟨3⟩] j = true ∧ j < ([⟨0⟩, ⟨3⟩] : List Creature).length) ∧
    (skipToNextAliveCombatant [⟨0⟩, ⟨3⟩] 0 = none ↔
        ∀ k, 1 ≤ k → k < ([⟨0⟩, ⟨3⟩] : List Creature).length →
          aliveAt [⟨0⟩, ⟨3⟩] ((0 + k) % ([⟨0⟩, ⟨3⟩] : List Creature).length) = false) :=
  C2_skipToNextAlive_amended [⟨0⟩, ⟨3⟩] 0 (by decide)

/-! ## Dice and damage parsing (`CombatService.rollDamage`)

`rollDamage` matches the damage descriptor against the JavaScript regex
`/(\d+)d(\d+)(\+(\d+))?/` via `String.prototype.match`, which searches for
the leftmost occurrence of the pattern anywhere in the string (the pattern
is unanchored).  For this particular pattern the greedy, backtracking-free
scan below is exact: each `\d+` must take a maximal digit run, because the
character required after it (`d`, `+`, or nothing) is never a digit. -/

/-- Digits of a decimal numeral to its value (`parseInt` on a digit run). -/
def digitsToNat (ds : List Char) : Nat :=
  ds.foldl (fun acc c => acc * 10 + (c.toNat - '0'.toNat)) 0

/-- Split a maximal leading digit run (`\d+`, greedy) from the rest. -/
def takeDigits : List Char → List Char × List Char
  | [] => ([], [])
  | c :: cs =>
    if c.isDigit then
      let (d, r) := takeDigits cs
      (c :: d, r)
    else ([], c :: cs)

/-- Try to match `(\d+)d(\d+)(\+(\d+))?` at the head of the character
list, returning the captured number of dice, die size, and bonus.  When
the optional bonus group does not participate, `parseInt(bonus)` is `NaN`
and `parseInt(bonus) || 0` yields `0`, so the bonus defaults to `0`. -/
def matchDamagePatternAt (l : List Char) : Option (Nat × Nat × Nat) :=
  let (d1, r1) := takeDigits l
  if d1.isEmpty then none
  else
    match r1 with
    | 'd' :: r2 =>
      let (d2, r3) := takeDigits r2
      if d2.isEmpty then none
      else
        let bonus : Option Nat :=
          match r3 with
          | '+' :: r4 =>
            let (d3, _) := takeDigits r4
            if d3.isEmpty then none else some (digitsToNat d3)
          | _ => none
        some (digitsToNat d1, digitsToNat d2, bonus.getD 0)
    | _ => none

/-- Leftmost search of the pattern, as `String.prototype.match` performs
with an unanchored regex: try each start position from the left. -/
def searchDamagePattern : List Char → Option (Nat × Nat × Nat)
  | [] => none
  | c :: cs =>
    match matchDamagePatternAt (c :: cs) with
    | some r => some r
    | none => searchDamagePattern cs

/-- Embeds `damageString.match(/(\d+)d(\d+)(\+(\d+))?/)`, reduced to the three
captured numbers. -/
def parseDamage (damageString : String) : Option (Nat × Nat × Nat) :=
  searchDamagePattern damageString.data

/-- Embeds `CombatService.rollDamage`: parse the descriptor; on failure return 0;
otherwise sum `numDice` die rolls of `dieSize` sides and add the bonus.
Returns the total together with the next unconsumed roll position. -/
def rollDamage (rng : DieSource) (pos : Nat) (damageString : String) : Int × Nat :=
  match parseDamage damageString with
  | none => (0, pos)
  | some (numDice, dieSize, bonus) =>
    let total := (List.range numDice).foldl (fun acc i => acc + rng (pos + i) dieSize) 0
    (total + (bonus : Int), pos + numDice)

/-- Folding `acc + f i` over a list from `a` is `a` plus the sum of the
mapped list. -/
theorem foldl_add_eq_sum (f : Nat → Int) :
    ∀ (l : List Nat) (a : Int),
      l.foldl (fun acc i => acc + f i) a = a + (l.map f).sum := by
  intro l
  induction l with
  | nil => intro a; simp
  | cons x xs ih =>
    intro a
    simp [ih, add_assoc]

/-- On a successful parse, the rolled value is the sum of the mapped die
rolls plus the bonus (shared between the C4 and C10 theorems). -/
theorem rollDamage_eq_sum (rng : DieSource) (pos : Nat) (s : String)
    (numDice dieSize bonus : Nat) (hp : parseDamage s = some (numDice, dieSize, bonus)) :
    (rollDamage rng pos s).1 =
      ((List.range numDice).map (fun i => rng (pos + i) dieSize)).sum + (bonus : Int) := by
  simp [rollDamage, hp, foldl_add_eq_sum]

/-- C4: `rollDamage` returns 0 whenever the descriptor does not contain a
match of `(\d+)d(\d+)(\+(\d+))?`; otherwise it returns the sum of
`numDice` independent rolls of a `dieSize`-sided die plus the bonus (the
bonus defaulting to 0 when the optional group is absent, which is folded
into `parseDamage`); and with a die source fixed to always return 4,
`rollDamage "2d6+3"` is exactly `2*4 + 3 = 11`. -/
theorem C4_rollDamage (rng : DieSource) (pos : Nat) (s : String) :
    (parseDamage s = none → (rollDamage rng pos s).1 = 0) ∧
    (∀ numDice dieSize bonus, parseDamage s = some (numDice, dieSize, bonus) →
      (rollDamage rng pos s).1 =
        ((List.range numDice).map (fun i => rng (pos + i) dieSize)).sum + (bonus : Int)) ∧
    (rollDamage (fun _ _ => 4) 0 "2d6+3").1 = 11 := by
  refine ⟨?_, ?_, by decide⟩
  · intro hp
    simp [rollDamage, hp]
  · intro numDice dieSize bonus hp
    exact rollDamage_eq_sum rng pos s numDice dieSize bonus hp

/-- C4, witness: the descriptor `"2d6+3"` parses to 2 dice of 6 sides with
bonus 3, and with the constant-4 die source the rolled total equals the
sum-of-rolls-plus-bonus form given by the theorem. -/
theorem C4_rollDamage_witness :
    parseDamage "2d6+3" = some (2, 6, 3) ∧
      (rollDamage (fun _ _ => 4) 0 "2d6+3").1 =
        ((List.range 2).map (fun i => (fun _ _ => (4 : Int)) (0 + i) 6)).sum + (3 : Int) :=
  ⟨by decide, (C4_rollDamage (fun _ _ => 4) 0 "2d6+3").2.1 2 6 3 (by decide)⟩

/-- Sum of `n` terms each in `[1, M]` lies in `[n, n*M]`. -/
theorem sum_range_bounds (f : Nat → Int) (M : Int)
    (h : ∀ i, 1 ≤ f i ∧ f i ≤ M) :
    ∀ n : Nat, (n : Int) ≤ ((List.range n).map f).sum ∧
      ((List.range n).map f).sum ≤ n * M := by
  intro n
  induction n with
  | zero => simp
  | succ m ih =>
    rw [List.range_succ, List.map_append, List.sum_append]
    have hm := h m
    have h1 : (1 : Int) ≤ M := le_trans hm.1 hm.2
    constructor
    · push_cast
      simp only [List.map_cons, List.map_nil, List.sum_cons, List.sum_nil]
      omega
    · push_cast
      simp only [List.map_cons, List.map_nil, List.sum_cons, List.sum_nil]
      nlinarith [ih.1, ih.2, hm.1, hm.2]

/-- C10: whenever the descriptor parses to `numDice` dice of `dieSize`
sides with bonus `bonus` (at least one die, at least one side), and the
die source only produces values in `[1, dieSize]`, the value returned by
`rollDamage` lies between `numDice + bonus` and `numDice * dieSize +
bonus`; in particular it is never negative. -/
theorem C10_rollDamage_bounds (rng : DieSource) (pos : Nat) (s : String)
    (numDice dieSize bonus : Nat)
    (hparse : parseDamage s = some (numDice, dieSize, bonus))
    (hdice : 1 ≤ numDice) (hsides : 1 ≤ dieSize)
    (hrange : ∀ p, 1 ≤ rng p dieSize ∧ rng p dieSize ≤ dieSize) :
    (numDice : Int) + bonus ≤ (rollDamage rng pos s).1 ∧
      (rollDamage rng pos s).1 ≤ (numDice : Int) * dieSize + bonus ∧
      0 ≤ (rollDamage rng pos s).1 := by
  have hval := rollDamage_eq_sum rng pos s numDice dieSize bonus hparse
  have hb := sum_range_bounds (fun i => rng (pos + i) dieSize) dieSize
    (fun i => hrange (pos + i)) numDice
  rw [hval]
  refine ⟨by omega, ?_, by omega⟩
  have := hb.2
  omega

/-- C10, witness: `"2d6+3"` with the constant-4 die source (a legal d6
source) gives a value between `2+3` and `2*6+3`, and nonnegative. -/
theorem C10_rollDamage_bounds_witness :
    ((2 : Nat) : Int) + (3 : Nat) ≤ (rollDamage (fun _ _ => 4) 0 "2d6+3").1 ∧
      (rollDamage (fun _ _ => 4) 0 "2d6+3").1 ≤ ((2 : Nat) : Int) * (6 : Nat) + (3 : Nat) ∧
      0 ≤ (rollDamage (fun _ _ => 4) 0 "2d6+3").1 :=
  C10_rollDamage_bounds (fun _ _ => 4) 0 "2d6+3" 2 6 3 (by decide) (by decide) (by decide)
    (fun p => ⟨by norm_num, by norm_num⟩)

/-! ## Attack bonus and attack execution (`CombatService.getAttackBonus`,
`CombatService.executeAttack`) -/

/-- The ability-score block read by the attack-bonus computation
(`character.stats`). -/
structure Stats where
  force : Int
  dexterite : Int
  deriving Repr, DecidableEq

/-- A character record as read by `getAttackBonus` and `executeAttack`. -/
structure CharacterRec where
  name : String
  level : Int
  stats : Stats
  deriving Repr, DecidableEq

/-- A weapon / attack definition.  `attackBonus` and `stat` are part of
the repository's attack data model (enemy attacks may carry them), even
though `CombatService.getAttackBonus` never reads them. -/
structure Weapon where
  name : String
  damage : String
  attackBonus : Option Int
  stat : Option String
  range : Option Int
  deriving Repr, DecidableEq

/-- The test `weapon.range > 5` under JavaScript semantics: an absent `range` field
compares as `undefined > 5`, which is `false`. -/
def weaponRangeGT5 (weapon : Weapon) : Bool :=
  match weapon.range with
  | some r => decide (r > 5)
  | none => false

/-- Embeds `CombatService.getAttackBonus` (the `CombatService.js` version cited
by the claim): proficiency bonus `Math.ceil(level / 4) + 1` (written as
`-((-level) / 4) + 1` with euclidean division) plus the dexterity modifier
when `weapon.range > 5`, else the strength modifier.  The `attackBonus`
and `stat` fields of the weapon are never consulted. -/
def getAttackBonus (character : CharacterRec) (weapon : Weapon) : Int :=
  let proficiencyBonus := -((-character.level) / 4) + 1
  let abilityMod :=
    if weaponRangeGT5 weapon then getModifier character.stats.dexterite
    else getModifier character.stats.force
  abilityMod + proficiencyBonus

/-- One damage entry of an action result: `{ targetId, damage }`. -/
structure DamageEntry where
  targetId : String
  damage : Int
  deriving Repr, DecidableEq

/-- The narrative messages pushed by `executeAttack`, reduced to their
structural content (attacker name, target name, and the numbers shown). -/
inductive CombatMsg where
  | criticalHit (attacker target : String) (damage : Int)
  | hitMsg (attacker target : String) (damage : Int)
  | missMsg (attacker target : String) (totalAttack ac : Int)
  deriving Repr, DecidableEq

/-- The mutable `results` record of `executePlayerAction`, restricted to
the fields `executeAttack` touches. -/
structure AttackResults where
  damage : List DamageEntry
  messages : List CombatMsg
  deriving Repr, DecidableEq

/-- A target as read by `executeAttack`: its id, name, and armor class. -/
structure TargetRec where
  id : String
  name : String
  ac : Int
  deriving Repr, DecidableEq

/-- Embeds `CombatService.executeAttack`: for each target in order, roll a d20,
add `getAttackBonus`, hit on `total >= target.ac` or a natural 20
(critical); on a hit roll the weapon damage (doubling the rolled total on
a critical) and push a damage entry and a message; on a miss push a miss
message.  Die rolls are consumed left to right: one d20 per target, then
the damage dice of that target's roll if it hit. -/
def executeAttack (rng : DieSource) (pos : Nat) (attacker : CharacterRec)
    (weapon : Weapon) (targets : List TargetRec) (results : AttackResults) :
    AttackResults × Nat :=
  targets.foldl
    (fun acc target =>
      let res := acc.1
      let p := acc.2
      let attackRoll := rng p 20
      let attackBonus := getAttackBonus attacker weapon
      let totalAttack := attackRoll + attackBonus
      let criticalHit := attackRoll = 20
      if totalAttack ≥ target.ac ∨ criticalHit then
        let rolled := rollDamage rng (p + 1) weapon.damage
        let damage := if criticalHit then rolled.1 * 2 else rolled.1
        let msg :=
          if criticalHit then CombatMsg.criticalHit attacker.name target.name damage
          else CombatMsg.hitMsg attacker.name target.name damage
        (⟨res.damage ++ [⟨target.id, damage⟩], res.messages ++ [msg]⟩, rolled.2)
      else
        (⟨res.damage,
            res.messages ++ [CombatMsg.missMsg attacker.name target.name totalAttack target.ac]⟩,
          p + 1))
    (results, pos)

/-- C3: whenever the d20 attack roll is a natural 20, the attack hits
regardless of the target's armor class (no hypothesis on `target.ac`), a
damage entry is recorded, and the damage equals exactly twice the
un-doubled `rollDamage` total — the damage is rolled once at position
`pos + 1` and then multiplied by 2 — for every die source (hence every
damage-roll outcome). -/
theorem C3_executeAttack_critical (rng : DieSource) (pos : Nat)
    (attacker : CharacterRec) (weapon : Weapon) (target : TargetRec)
    (results : AttackResults) (h20 : rng pos 20 = 20) :
    executeAttack rng pos attacker weapon [target] results =
      (⟨results.damage ++ [⟨target.id, (rollDamage rng (pos + 1) weapon.damage).1 * 2⟩],
          results.messages ++
            [CombatMsg.criticalHit attacker.name target.name
                ((rollDamage rng (pos + 1) weapon.damage).1 * 2)]⟩,
        (rollDamage rng (pos + 1) weapon.damage).2) := by
  simp [executeAttack, h20]

/-- C3, witness: with a die source that always returns 20 and the weapon
`"1d6+2"`, the single-target attack is a critical hit for 2 × (20 + 2)
damage against any armor class (here 30). -/
theorem C3_executeAttack_critical_witness :
    executeAttack (fun _ _ => 20) 0 ⟨"pj", 1, ⟨10, 10⟩⟩
        ⟨"lame", "1d6+2", none, none, none⟩ [⟨"e1", "gobelin", 30⟩] ⟨[], []⟩ =
      (⟨[⟨"e1", (rollDamage (fun _ _ => 20) 1 "1d6+2").1 * 2⟩],
          [CombatMsg.criticalHit "pj" "gobelin"
              ((rollDamage (fun _ _ => 20) 1 "1d6+2").1 * 2)]⟩,
        (rollDamage (fun _ _ => 20) 1 "1d6+2").2) := by
  have h := C3_executeAttack_critical (fun _ _ => 20) 0 ⟨"pj", 1, ⟨10, 10⟩⟩
    ⟨"lame", "1d6+2", none, none, none⟩ ⟨"e1", "gobelin", 30⟩ ⟨[], []⟩ rfl
  simpa using h

/-- C5: counterexample.  The cited `getAttackBonus` never reads the
weapon's `attackBonus` field: for a weapon carrying `attackBonus: 100`
(melee range, level-1 attacker with strength 10 and dexterity 10), the
function returns the derived bonus 2 and not 100, refuting "returns
attack.attackBonus verbatim whenever that field is set". -/
theorem C5_getAttackBonus_counterexample :
    (Weapon.mk "lame" "1d6" (some 100) none (some 1)).attackBonus = some 100 ∧
      getAttackBonus ⟨"pj", 1, ⟨10, 10⟩⟩ (Weapon.mk "lame" "1d6" (some 100) none (some 1)) = 2 ∧
      ¬ getAttackBonus ⟨"pj", 1, ⟨10, 10⟩⟩
          (Weapon.mk "lame" "1d6" (some 100) none (some 1)) = 100 := by
  refine ⟨rfl, by decide, by decide⟩

/-- The attack-bonus rule of the amended claim, stated in its own words:
the bonus is always the proficiency bonus `ceil(level / 4) + 1` plus the
ability modifier of dexterity when the weapon's declared range exceeds 5
(a weapon without a range counts as not exceeding 5), and of strength
otherwise; the attack's own `attackBonus` and `stat` fields play no role
and there is no level-absent default. -/
def attackBonusAmended (character : CharacterRec) (weapon : Weapon) : Int :=
  let profBonus := -((-character.level) / 4) + 1
  match weapon.range with
  | some r =>
    if r > 5 then getModifier character.stats.dexterite + profBonus
    else getModifier character.stats.force + profBonus
  | none => getModifier character.stats.force + profBonus

/-- C5 (amended): `getAttackBonus` always returns proficiency bonus
`ceil(level / 4) + 1` plus the modifier of dexterity if `weapon.range > 5`
and of strength otherwise; in particular it is insensitive to the weapon's
`attackBonus` and `stat` fields (it never returns `attack.attackBonus`
verbatim, and there is no ranged/`stat` selection and no
missing-data fallback in this version). -/
theorem C5_getAttackBonus_amended :
    (∀ character weapon, getAttackBonus character weapon = attackBonusAmended character weapon) ∧
      (∀ character weapon b s,
        getAttackBonus character { weapon with attackBonus := b, stat := s } =
          getAttackBonus character weapon) := by
  constructor
  · intro character weapon
    unfold getAttackBonus attackBonusAmended weaponRangeGT5
    match weapon.range with
    | some r =>
      by_cases hr : r > 5 <;> simp [hr]
    | none => simp
  · intro character weapon b s
    rfl

/-! ## Initiative (`CombatService.rollInitiative`)

`Array.prototype.sort` is required (ES2019) to be stable, and for a
consistent comparator its output is the unique permutation that is sorted
for the comparator with equal elements kept in input order.  The
comparator of `rollInitiative` is consistent (it induces the total
preorder `initOrder` below), so the sort is embedded as a stable insertion
sort with respect to "compares ≤ 0". -/

/-- The stat block read for initiative (`stats.dexterite`). -/
structure InitStats where
  dexterite : Int
  deriving Repr, DecidableEq

/-- The player record handed to `rollInitiative`; a missing `stats` is a
fatal error (`!playerCharacter.stats`). -/
structure PlayerRec where
  name : String
  stats : Option InitStats
  deriving Repr, DecidableEq

/-- A companion record (`playerCompanion.stats.dexterite` is read
unconditionally once the companion exists). -/
structure CompanionRec where
  name : String
  stats : InitStats
  deriving Repr, DecidableEq

/-- An enemy record as produced by `createEnemiesFromEncounter`. -/
structure EnemyRec where
  id : String
  stats : InitStats
  deriving Repr, DecidableEq

/-- The `type` tag pushed on each combatant. -/
inductive CombatantType where
  | player
  | companion
  | enemy
  deriving Repr, DecidableEq

/-- An entry of the returned turn order: type tag, id, and the rolled
initiative (`d20 + dexterity modifier`). -/
structure Combatant where
  ctype : CombatantType
  id : String
  initiative : Int
  deriving Repr, DecidableEq

/-- The raised configuration errors of `CombatService`. -/
inductive CombatError where
  | playerRequired
  | noEnemiesInEncounter
  deriving Repr, DecidableEq

/-- The tie branch of the initiative comparator: priority
player > companion > enemy, 0 between two enemies. -/
def typeTieBreak (a b : Combatant) : Int :=
  if a.ctype = .player then -1
  else if b.ctype = .player then 1
  else if a.ctype = .companion then -1
  else if b.ctype = .companion then 1
  else 0

/-- The comparator passed to `combatants.sort` in `rollInitiative`. -/
def jsCompare (a b : Combatant) : Int :=
  if a.initiative = b.initiative then typeTieBreak a b
  else b.initiative - a.initiative

/-- Holds when `a` sorts no later than `b`: the comparator answers ≤ 0. -/
def initOrder (a b : Combatant) : Prop := jsCompare a b ≤ 0

instance : DecidableRel initOrder :=
  fun a b => inferInstanceAs (Decidable (jsCompare a b ≤ 0))

/-- Numeric priority of the type tags: player 0, companion 1, enemy 2. -/
def typeRank : CombatantType → Nat
  | .player => 0
  | .companion => 1
  | .enemy => 2

/-- The comparator induces the lexicographic order "higher initiative
first, then player before companion before enemy". -/
theorem initOrder_iff (a b : Combatant) :
    initOrder a b ↔
      (b.initiative < a.initiative ∨
        (a.initiative = b.initiative ∧ typeRank a.ctype ≤ typeRank b.ctype)) := by
  unfold initOrder jsCompare typeTieBreak
  by_cases h : a.initiative = b.initiative
  · simp only [h, if_pos rfl, lt_irrefl]
    simp only [lt_self_iff_false, false_or, true_and]
    cases a.ctype <;> cases b.ctype <;> simp [typeRank]
  · rw [if_neg h]
    constructor
    · intro hle
      left
      omega
    · intro hor
      rcases hor with hlt | ⟨heq, _⟩
      · omega
      · exact absurd heq h

instance : IsTotal Combatant initOrder :=
  ⟨by
    intro a b
    rw [initOrder_iff, initOrder_iff]
    omega⟩

instance : IsTrans Combatant initOrder :=
  ⟨by
    intro a b c hab hbc
    rw [initOrder_iff] at hab hbc ⊢
    omega⟩

/-- Embeds `combatants.sort(comparator)` of `rollInitiative`: the stable sort
with respect to `initOrder`. -/
def jsSortCombatants (combatants : List Combatant) : List Combatant :=
  List.insertionSort initOrder combatants

/-- The combatant list built (pushed in order: player, companion when
present, then the enemies in input order) before sorting, with each
initiative rolled as `d20 + getModifier(stats.dexterite)`; the d20 rolls
are consumed in push order. -/
def initiativeEntries (rng : DieSource) (pstats : InitStats)
    (companion : Option CompanionRec) (enemies : List EnemyRec) : List Combatant :=
  let playerEntry : Combatant := ⟨.player, "player", rng 0 20 + getModifier pstats.dexterite⟩
  match companion with
  | some c =>
    playerEntry ::
      ⟨.companion, "companion", rng 1 20 + getModifier c.stats.dexterite⟩ ::
        enemies.enum.map
          (fun ie => ⟨.enemy, ie.2.id, rng (2 + ie.1) 20 + getModifier ie.2.stats.dexterite⟩)
  | none =>
    playerEntry ::
      enemies.enum.map
        (fun ie => ⟨.enemy, ie.2.id, rng (1 + ie.1) 20 + getModifier ie.2.stats.dexterite⟩)

/-- Embeds `CombatService.rollInitiative`: fatal error when the player or its
stats are absent, otherwise the built combatant list sorted by the
comparator. -/
def rollInitiative (rng : DieSource) (player : Option PlayerRec)
    (companion : Option CompanionRec) (enemies : List EnemyRec) :
    Except CombatError (List Combatant) :=
  match player with
  | none => .error .playerRequired
  | some p =>
    match p.stats with
    | none => .error .playerRequired
    | some pstats => .ok (jsSortCombatants (initiativeEntries rng pstats companion enemies))

/-- Inserting an element not satisfying `p` does not change the
`p`-filtered list. -/
theorem filter_orderedInsert_of_neg {α : Type} (r : α → α → Prop) [DecidableRel r]
    (p : α → Bool) (x : α) (hx : p x = false) :
    ∀ l : List α, (List.orderedInsert r x l).filter p = l.filter p := by
  intro l
  induction l with
  | nil => simp [hx]
  | cons y ys ih =>
    by_cases hr : r x y
    · simp [List.orderedInsert, if_pos hr, hx]
    · simp only [List.orderedInsert, if_neg hr]
      cases hpy : p y <;> simp [List.filter_cons, hpy, ih]

/-- Inserting an element of `p` that sorts no later than every `p`-element
of the list puts it in front of all of them in the `p`-filtered list. -/
theorem filter_orderedInsert_of_pos {α : Type} (r : α → α → Prop) [DecidableRel r]
    (p : α → Bool) (x : α) (hx : p x = true) :
    ∀ l : List α, (∀ y ∈ l, p y = true → r x y) →
      (List.orderedInsert r x l).filter p = x :: l.filter p := by
  intro l
  induction l with
  | nil => simp [hx]
  | cons y ys ih =>
    intro hall
    by_cases hr : r x y
    · simp [List.orderedInsert, if_pos hr, List.filter_cons, hx]
    · have hpy : p y = false := by
        cases hpy : p y
        · rfl
        · exact absurd (hall y (by simp) hpy) hr
      simp only [List.orderedInsert, if_neg hr]
      rw [List.filter_cons, List.filter_cons]
      simp only [hpy, cond_false]
      exact ih (fun z hz hpz => hall z (by simp [hz]) hpz)

/-- Stability of the insertion sort on an equivalence class: when all
`p`-elements are mutually related by `r`, sorting does not change the
`p`-filtered list (their relative input order survives). -/
theorem insertionSort_filter_stable {α : Type} (r : α → α → Prop) [DecidableRel r]
    (p : α → Bool) (hp : ∀ x y, p x = true → p y = true → r x y) :
    ∀ l : List α, (List.insertionSort r l).filter p = l.filter p := by
  intro l
  induction l with
  | nil => rfl
  | cons a l ih =>
    simp only [List.insertionSort]
    cases hpa : p a
    · rw [filter_orderedInsert_of_neg r p a hpa, ih, List.filter_cons]
      simp [hpa]
    · rw [filter_orderedInsert_of_pos r p a hpa _
        (fun y _ hpy => hp a y hpa hpy), ih, List.filter_cons]
      simp [hpa]

/-- Enemies holding a given initiative value: the equivalence class used
to state tie-stability among enemies. -/
def enemyWithInitiative (v : Int) (c : Combatant) : Bool :=
  decide (c.ctype = .enemy) && decide (c.initiative = v)

/-- Two enemies with the same initiative are mutually unordered by the
comparator (it answers 0 on them). -/
theorem enemyWithInitiative_rel (v : Int) (x y : Combatant)
    (hx : enemyWithInitiative v x = true) (hy : enemyWithInitiative v y = true) :
    initOrder x y := by
  unfold enemyWithInitiative at hx hy
  simp only [Bool.and_eq_true, decide_eq_true_eq] at hx hy
  unfold initOrder jsCompare typeTieBreak
  rw [if_pos (by rw [hx.2, hy.2]), hx.1, hy.1]
  simp

/-- The descending-initiative-then-priority ordering of the returned turn
order: strictly higher initiative first, ties resolved by
player > companion > enemy (enemies mutually unordered). -/
def initiativeDescending (a b : Combatant) : Prop :=
  b.initiative < a.initiative ∨
    (a.initiative = b.initiative ∧ typeRank a.ctype ≤ typeRank b.ctype)

/-- C6: `rollInitiative` fails with the player-required error exactly when
the player or its stats are absent; otherwise it returns a permutation of
the built combatant entries (player, companion when present, every enemy,
each with initiative `d20 + dexterity modifier`), sorted so that higher
initiative comes first with ties broken by player > companion > enemy, and
with equal-initiative enemies kept in input order (stability, stated as
invariance of each equal-initiative enemy class under the sort). -/
theorem C6_rollInitiative (rng : DieSource) (player : Option PlayerRec)
    (companion : Option CompanionRec) (enemies : List EnemyRec) :
    (rollInitiative rng player companion enemies = .error .playerRequired ↔
        player.bind PlayerRec.stats = none) ∧
    (∀ nm pstats, player = some ⟨nm, some pstats⟩ →
      ∃ out, rollInitiative rng player companion enemies = .ok out ∧
        out.Perm (initiativeEntries rng pstats companion enemies) ∧
        List.Sorted initiativeDescending out ∧
        ∀ v : Int, out.filter (enemyWithInitiative v) =
          (initiativeEntries rng pstats companion enemies).filter (enemyWithInitiative v)) := by
  constructor
  · match player with
    | none => simp [rollInitiative]
    | some p =>
      match hs : p.stats with
      | none => simp [rollInitiative, hs, Option.bind]
      | some pstats => simp [rollInitiative, hs, Option.bind]
  · intro nm pstats hp
    subst hp
    refine ⟨jsSortCombatants (initiativeEntries rng pstats companion enemies), rfl, ?_, ?_, ?_⟩
    · exact List.perm_insertionSort initOrder _
    · exact (List.sorted_insertionSort initOrder _).imp
        (fun hab => (initOrder_iff _ _).mp hab)
    · intro v
      exact insertionSort_filter_stable initOrder (enemyWithInitiative v)
        (enemyWithInitiative_rel v) _

/-- C6, witness: a concrete encounter — player with dexterity 14,
companion with dexterity 12, two enemies with dexterity 10, die source
returning 10 for every roll (so the two enemies tie). -/
theorem C6_rollInitiative_witness :
    ∃ out, rollInitiative (fun _ _ => 10) (some ⟨"Haldir", some ⟨14⟩⟩)
          (some ⟨"Finn", ⟨12⟩⟩) [⟨"gobelin_0_0", ⟨10⟩⟩, ⟨"gobelin_0_1", ⟨10⟩⟩] = .ok out ∧
        out.Perm (initiativeEntries (fun _ _ => 10) ⟨14⟩
          (some ⟨"Finn", ⟨12⟩⟩) [⟨"gobelin_0_0", ⟨10⟩⟩, ⟨"gobelin_0_1", ⟨10⟩⟩]) ∧
        List.Sorted initiativeDescending out ∧
        ∀ v : Int, out.filter (enemyWithInitiative v) =
          (initiativeEntries (fun _ _ => 10) ⟨14⟩
            (some ⟨"Finn", ⟨12⟩⟩)
            [⟨"gobelin_0_0", ⟨10⟩⟩, ⟨"gobelin_0_1", ⟨10⟩⟩]).filter (enemyWithInitiative v) :=
  (C6_rollInitiative (fun _ _ => 10) (some ⟨"Haldir", some ⟨14⟩⟩)
    (some ⟨"Finn", ⟨12⟩⟩) [⟨"gobelin_0_0", ⟨10⟩⟩, ⟨"gobelin_0_1", ⟨10⟩⟩]).2
    "Haldir" ⟨14⟩ rfl

/-! ## Encounter initialization (`CombatService.createEnemiesFromEncounter`) -/

/-- One group of the encounter spec: `{ type, count }`. -/
structure EnemyGroup where
  etype : String
  count : Nat
  deriving Repr, DecidableEq

/-- The encounter data as read by `createEnemiesFromEncounter`. -/
structure EncounterData where
  enemies : List EnemyGroup
  deriving Repr, DecidableEq

/-- An enemy template of the registry (`enemyTemplates`, imported from
`src/data/enemies`; the registry is data, so it is a parameter here). -/
structure EnemyTemplate where
  name : String
  currentHP : Option Int
  maxHP : Option Int
  ac : Option Int
  deriving Repr, DecidableEq

/-- A concrete enemy instance cloned from a template.  The JS id string
`` `${type}_${groupIndex}_${index}` `` is kept as its three components,
and the numeric name suffix (only added when `count > 1`) as
`displayNumber`. -/
structure EnemyInstance where
  etype : String
  groupIndex : Nat
  indexInGroup : Nat
  templateName : String
  displayNumber : Option Nat
  currentHP : Int
  maxHP : Int
  ac : Int
  deriving Repr, DecidableEq

/-- Cloning one enemy from a template, with the `??` default chains
`currentHP ?? maxHP ?? 10`, `maxHP ?? 10`, `ac ?? 10`. -/
def instantiateEnemy (template : EnemyTemplate) (group : EnemyGroup)
    (groupIndex indexInGroup : Nat) : EnemyInstance :=
  { etype := group.etype
    groupIndex := groupIndex
    indexInGroup := indexInGroup
    templateName := template.name
    displayNumber := if group.count > 1 then some (indexInGroup + 1) else none
    currentHP := template.currentHP.getD (template.maxHP.getD 10)
    maxHP := template.maxHP.getD 10
    ac := template.ac.getD 10 }

/-- The `flatMap` over groups with their indices: a group whose type key
is missing from the registry contributes `[]` (it is skipped with a
logged warning), a found group contributes `count` cloned instances. -/
def expandGroups (templates : String → Option EnemyTemplate) :
    Nat → List EnemyGroup → List EnemyInstance
  | _, [] => []
  | gi, g :: gs =>
    (match templates g.etype with
      | none => []
      | some t => (List.range g.count).map (fun j => instantiateEnemy t g gi j)) ++
      expandGroups templates (gi + 1) gs

/-- Embeds `CombatService.createEnemiesFromEncounter`: throws the
no-enemies-defined configuration error when the encounter data or its
(possibly empty) group list is missing (`!encounterData?.enemies?.length`),
and otherwise expands every group. -/
def createEnemiesFromEncounter (templates : String → Option EnemyTemplate)
    (encounterData : Option EncounterData) : Except CombatError (List EnemyInstance) :=
  match encounterData with
  | none => .error .noEnemiesInEncounter
  | some ed =>
    if ed.enemies.isEmpty then .error .noEnemiesInEncounter
    else .ok (expandGroups templates 0 ed.enemies)

/-- The number of created instances: each group with a known type key
contributes exactly its `count`, a group with an unknown key contributes
nothing. -/
theorem expandGroups_length (templates : String → Option EnemyTemplate) :
    ∀ (groups : List EnemyGroup) (gi : Nat),
      (expandGroups templates gi groups).length =
        (groups.map (fun g => if (templates g.etype).isSome then g.count else 0)).sum := by
  intro groups
  induction groups with
  | nil => intro gi; rfl
  | cons g gs ih =>
    intro gi
    simp only [expandGroups, List.length_append, List.map_cons, List.sum_cons, ih]
    match h : templates g.etype with
    | none => simp [h]
    | some t => simp [h]

/-- C7: `createEnemiesFromEncounter` raises the configuration error iff
the encounter spec contains zero enemy groups; with at least one group it
never raises, and it produces exactly `count` instances for every group
whose type key is in the registry while groups with unknown keys are
skipped and contribute no instances. -/
theorem C7_createEnemiesFromEncounter (templates : String → Option EnemyTemplate)
    (ed : EncounterData) :
    (createEnemiesFromEncounter templates (some ed) = .error .noEnemiesInEncounter ↔
        ed.enemies = []) ∧
    (ed.enemies ≠ [] →
      createEnemiesFromEncounter templates (some ed) =
          .ok (expandGroups templates 0 ed.enemies) ∧
        (expandGroups templates 0 ed.enemies).length =
          (ed.enemies.map (fun g => if (templates g.etype).isSome then g.count else 0)).sum) := by
  constructor
  · unfold createEnemiesFromEncounter
    by_cases he : ed.enemies = []
    · simp [he]
    · simp [he, List.isEmpty_iff]
  · intro he
    refine ⟨?_, expandGroups_length templates ed.enemies 0⟩
    unfold createEnemiesFromEncounter
    simp [List.isEmpty_iff, he]

/-- C7, witness: a registry knowing only `"gobelin"`, and a spec with a
group of 2 gobelins and a group of 3 unknown `"orc"`s: no error, and
2 + 0 instances. -/
theorem C7_createEnemiesFromEncounter_witness :
    createEnemiesFromEncounter
        (fun s => if s = "gobelin" then some ⟨"Gobelin", none, some 7, some 13⟩ else none)
        (some ⟨[⟨"gobelin", 2⟩, ⟨"orc", 3⟩]⟩) =
      .ok (expandGroups
        (fun s => if s = "gobelin" then some ⟨"Gobelin", none, some 7, some 13⟩ else none)
        0 [⟨"gobelin", 2⟩, ⟨"orc", 3⟩]) ∧
    (expandGroups
        (fun s => if s = "gobelin" then some ⟨"Gobelin", none, some 7, some 13⟩ else none)
        0 [⟨"gobelin", 2⟩, ⟨"orc", 3⟩]).length =
      ([⟨"gobelin", 2⟩, ⟨"orc", 3⟩].map
        (fun g : EnemyGroup =>
          if ((fun s => if s = "gobelin" then some (EnemyTemplate.mk "Gobelin" none (some 7) (some 13))
              else none) g.etype).isSome then g.count else 0)).sum :=
  (C7_createEnemiesFromEncounter
    (fun s => if s = "gobelin" then some ⟨"Gobelin", none, some 7, some 13⟩ else none)
    ⟨[⟨"gobelin", 2⟩, ⟨"orc", 3⟩]⟩).2 (by simp)

/-! ## Entity attacks (the extended `CombatService` shipped with the repo
sources, `executeEntityAttack` and its `getAttackBonus`)

The extended service reads the attacker's stats as a keyed map
(`character.stats[stat]`), so stats are modelled as an association list
with `lookup`.  `isNaN` guards of the source are unreachable in this
embedding because bonuses and armor classes are integers by construction,
which is the non-`NaN` case the guards let through. -/

/-- An attacker as read by the extended `getAttackBonus` and the message
builder (`attacker.type` picks the hit-message category). -/
structure Entity where
  name : String
  etype : String
  level : Option Int
  stats : Option (List (String × Int))
  deriving Repr, DecidableEq

/-- An attack as read by the extended service: optional explicit
`attackBonus`, optional governing `stat`, `category`/`type`/`range` for
the ranged test, and the `damageDice`/`damageBonus`/`damage` variants of
the damage data. -/
structure EntityAttack where
  name : String
  damage : Option String
  damageDice : Option String
  damageBonus : Option Int
  attackBonus : Option Int
  stat : Option String
  category : Option String
  atype : Option String
  range : Option Int
  deriving Repr, DecidableEq

/-- The nested character record some targets carry
(`target.character.currentHP`, `target.character.ac`). -/
structure EntityChar where
  currentHP : Int
  ac : Int
  deriving Repr, DecidableEq

/-- A target of `executeEntityAttack`: either a wrapper holding a nested
`character` record, or a plain combatant carrying its own `currentHP` and
`ac` (the function reads a plain target's `ac` but never its
`currentHP`). -/
structure EntityTarget where
  name : String
  character : Option EntityChar
  currentHP : Option Int
  ac : Option Int
  deriving Repr, DecidableEq

/-- The extended `getAttackBonus`: return `weapon.attackBonus` verbatim
when set; otherwise proficiency `Math.ceil(level / 4) + 1` (2 when
`character.level` is falsy), 0 when `character.stats` is missing, and else
the modifier of the governing stat (the weapon's `stat` if truthy, else
dexterity when the weapon is ranged by `category`/`type` or has
`range > 1`, else strength), falling back to the proficiency bonus alone
when that stat is missing from the map. -/
def getAttackBonusV2 (character : Entity) (weapon : EntityAttack) : Int :=
  match weapon.attackBonus with
  | some ab => ab
  | none =>
    let proficiencyBonus :=
      match character.level with
      | some l => if l = 0 then 2 else -((-l) / 4) + 1
      | none => 2
    match character.stats with
    | none => 0
    | some stats =>
      let rangedByRange :=
        match weapon.range with
        | some r => decide (r ≠ 0) && decide (r > 1)
        | none => false
      let defaultStat :=
        if weapon.category = some "ranged" ∨ weapon.atype = some "ranged" ∨
            rangedByRange = true then
          "dexterite"
        else "force"
      let stat :=
        match weapon.stat with
        | some s => if s = "" then defaultStat else s
        | none => defaultStat
      match stats.lookup stat with
      | none => proficiencyBonus
      | some v => getModifier v + proficiencyBonus

/-- The narrative messages emitted by `executeEntityAttack`, reduced to
their structural content. -/
inductive EntityMsg where
  | alreadyFallen (attacker target : String)
  | criticalMsg (attacker attackName target : String) (damage : Int)
  | entityHit (attacker attackName target : String) (damage : Int) (category : String)
  | missEntity (attacker target attackName : String) (totalAttack targetAC : Int)
  deriving Repr, DecidableEq

/-- The returned record `{ success, damage }`, with `critical` present
only on a successful hit. -/
structure EntityAttackResult where
  success : Bool
  damage : Int
  critical : Option Bool
  deriving Repr, DecidableEq

/-- The roll-and-resolve tail of `executeEntityAttack`, reached when the
parameter and alive-target guards pass. -/
def executeEntityAttackCore (rng : DieSource) (pos : Nat) (atk : Entity)
    (a : EntityAttack) (t : EntityTarget) : EntityAttackResult × List EntityMsg × Nat :=
  let attackRoll := rng pos 20
  let attackBonus := getAttackBonusV2 atk a
  let totalAttack := attackRoll + attackBonus
  let criticalHit := decide (attackRoll = 20)
  let targetAC :=
    match t.character with
    | some ch => ch.ac
    | none =>
      match t.ac with
      | some x => if x = 0 then 10 else x
      | none => 10
  if totalAttack ≥ targetAC ∨ criticalHit = true then
    let rolled :=
      match a.damageDice with
      | some dd =>
        let r := rollDamage rng (pos + 1) dd
        (r.1 + a.damageBonus.getD 0, r.2)
      | none =>
        match a.damage with
        | some d => rollDamage rng (pos + 1) d
        | none => ((1 : Int), pos + 1)
    let damage := if criticalHit then rolled.1 * 2 else rolled.1
    let msg :=
      if criticalHit then EntityMsg.criticalMsg atk.name a.name t.name damage
      else
        EntityMsg.entityHit atk.name a.name t.name damage
          (if atk.etype = "enemy" then "enemy-hit" else "companion-hit")
    (⟨true, damage, some criticalHit⟩, [msg], rolled.2)
  else
    (⟨false, 0, none⟩, [.missEntity atk.name t.name a.name totalAttack targetAC], pos + 1)

/-- The extended `CombatService.executeEntityAttack`: missing-parameter
guard, then the defeated-target guard
(`target.character && target.character.currentHP <= 0`), then the roll. -/
def executeEntityAttack (rng : DieSource) (pos : Nat) (attacker : Option Entity)
    (attack : Option EntityAttack) (target : Option EntityTarget) :
    EntityAttackResult × List EntityMsg × Nat :=
  match attacker, attack, target with
  | some atk, some a, some t =>
    match t.character with
    | some ch =>
      if ch.currentHP ≤ 0 then
        (⟨false, 0, none⟩, [.alreadyFallen atk.name t.name], pos)
      else executeEntityAttackCore rng pos atk a t
    | none => executeEntityAttackCore rng pos atk a t
  | _, _, _ => (⟨false, 0, none⟩, [], pos)

/-- C8: counterexample.  A plain combatant target (no nested `character`
record) that is already defeated — its own `currentHP` is 0 — is attacked
normally: with a die source always rolling 20 the call returns
`success: true` with critical damage and consumes two rolls (the final
roll position is 2, not 0), because the defeated-target guard only
inspects `target.character`.  This refutes the claim for such targets. -/
theorem C8_executeEntityAttack_counterexample :
    (EntityTarget.mk "gobelin" none (some 0) (some 15)).currentHP = some 0 ∧
      executeEntityAttack (fun _ _ => 20) 0
          (some ⟨"loup", "enemy", some 1, some [("force", 14)]⟩)
          (some ⟨"morsure", some "1d6", none, none, some 4, none, none, none, none⟩)
          (some (EntityTarget.mk "gobelin" none (some 0) (some 15))) =
        (⟨true, 40, some true⟩,
          [EntityMsg.criticalMsg "loup" "morsure" "gobelin" 40], 2) := by
  exact ⟨rfl, by decide⟩

/-- C8 (amended): for every target that carries a nested `character`
record with `currentHP ≤ 0`, `executeEntityAttack` returns
`success: false` with damage 0 and the "already fallen" narrative message,
consumes no die roll (the roll position is returned unchanged), and emits
no hit or miss outcome.  Targets without a nested `character` record are
not covered by the guard (see the counterexample). -/
theorem C8_executeEntityAttack_amended (rng : DieSource) (pos : Nat)
    (atk : Entity) (a : EntityAttack) (t : EntityTarget) (ch : EntityChar)
    (hch : t.character = some ch) (hdead : ch.currentHP ≤ 0) :
    executeEntityAttack rng pos (some atk) (some a) (some t) =
      (⟨false, 0, none⟩, [.alreadyFallen atk.name t.name], pos) := by
  have hred : executeEntityAttack rng pos (some atk) (some a) (some t) =
      match t.character with
      | some ch =>
        if ch.currentHP ≤ 0 then
          (⟨false, 0, none⟩, [.alreadyFallen atk.name t.name], pos)
        else executeEntityAttackCore rng pos atk a t
      | none => executeEntityAttackCore rng pos atk a t := rfl
  rw [hred, hch]
  simp [hdead]

/-- C8 (amended), witness: a defeated wrapped target (nested character at
0 HP, armor class 12) attacked by a wolf with a constant-20 die source:
the guard fires and no roll is consumed. -/
theorem C8_executeEntityAttack_amended_witness :
    executeEntityAttack (fun _ _ => 20) 0
        (some ⟨"loup", "enemy", some 1, some [("force", 14)]⟩)
        (some ⟨"morsure", some "1d6", none, none, some 4, none, none, none, none⟩)
        (some ⟨"héros", some ⟨0, 12⟩, none, none⟩) =
      (⟨false, 0, none⟩, [.alreadyFallen "loup" "héros"], 0) :=
  C8_executeEntityAttack_amended (fun _ _ => 20) 0
    ⟨"loup", "enemy", some 1, some [("force", 14)]⟩
    ⟨"morsure", some "1d6", none, none, some 4, none, none, none, none⟩
    ⟨"héros", some ⟨0, 12⟩, none, none⟩ ⟨0, 12⟩ rfl (by decide)

/-! ## Character-store healing (`characterStore.spendHitDie`,
`characterStore.useItem` heal effects)

The store actions are thin `set`-wrappers around per-character updates;
the updates themselves are embedded.  The single hit-die roll
`Math.floor(Math.random() * hitDieSize) + 1` is injected as a function of
the die size. -/

/-- A character as read by the healing paths: HP, hit dice, and
`stats.constitution`. -/
structure StoreCharacter where
  currentHP : Int
  maxHP : Int
  hitDice : Int
  hitDiceType : Option Int
  constitution : Int
  deriving Repr, DecidableEq

/-- The per-character update of `characterStore.spendHitDie`: no-op when
no hit dice remain or HP is already full; otherwise heal by
`max(1, roll + constitutionModifier)` clamped to `maxHP`, and spend one
hit die.  `hitDiceType || 8` makes a missing or zero die type default
to 8. -/
def spendHitDieChar (rollOf : Int → Int) (character : StoreCharacter) : StoreCharacter :=
  if character.hitDice ≤ 0 then character
  else if character.currentHP ≥ character.maxHP then character
  else
    let hitDieSize :=
      match character.hitDiceType with
      | some t => if t = 0 then 8 else t
      | none => 8
    let constitutionModifier := (character.constitution - 10) / 2
    let roll := rollOf hitDieSize
    let healing := max 1 (roll + constitutionModifier)
    let newHP := min character.maxHP (character.currentHP + healing)
    { character with currentHP := newHP, hitDice := character.hitDice - 1 }

/-- An entry of `item.effects` in the legacy branch of
`characterStore.useItem`: a heal effect with a fixed value, or an effect
of an unknown type (which only logs a warning). -/
inductive ItemEffect where
  | heal (value : Int)
  | other (etype : String)
  deriving Repr, DecidableEq

/-- The `item.effects.forEach` loop of `characterStore.useItem`: each heal
effect sets `currentHP` to `Math.min(character.maxHP, character.currentHP
+ healAmount)` — reading the ORIGINAL character's fields, as the source
does — and unknown effect types leave the record unchanged. -/
def applyItemEffects (character : StoreCharacter) (effects : List ItemEffect) : StoreCharacter :=
  effects.foldl
    (fun updated eff =>
      match eff with
      | .heal v =>
        { updated with currentHP := min character.maxHP (character.currentHP + v) }
      | .other _ => updated)
    character

/-- The fold of `applyItemEffects` keeps `currentHP` within
`[0, maxHP]` and never touches `maxHP`, for nonnegative heal values. -/
theorem applyItemEffects_bounds (character : StoreCharacter)
    (h0 : 0 ≤ character.currentHP) (h1 : character.currentHP ≤ character.maxHP) :
    ∀ (effects : List ItemEffect) (acc : StoreCharacter),
      (∀ v : Int, ItemEffect.heal v ∈ effects → 0 ≤ v) →
      0 ≤ acc.currentHP → acc.currentHP ≤ character.maxHP →
      acc.maxHP = character.maxHP →
      0 ≤ (effects.foldl
          (fun updated eff =>
            match eff with
            | .heal v =>
              { updated with
                  currentHP := min character.maxHP (character.currentHP + v) }
            | .other _ => updated) acc).currentHP ∧
        (effects.foldl
          (fun updated eff =>
            match eff with
            | .heal v =>
              { updated with
                  currentHP := min character.maxHP (character.currentHP + v) }
            | .other _ => updated) acc).currentHP ≤ character.maxHP ∧
        (effects.foldl
          (fun updated eff =>
            match eff with
            | .heal v =>
              { updated with
                  currentHP := min character.maxHP (character.currentHP + v) }
            | .other _ => updated) acc).maxHP = character.maxHP := by
  intro effects
  induction effects with
  | nil =>
    intro acc _ ha0 ha1 ham
    exact ⟨ha0, ha1, ham⟩
  | cons eff rest ih =>
    intro acc hall ha0 ha1 ham
    match eff with
    | .heal v =>
      have hv : 0 ≤ v := hall v (by simp)
      exact ih _ (fun w hw => hall w (by simp [hw]))
        (le_min (by omega) (by omega)) (min_le_left _ _) ham
    | .other s =>
      exact ih acc (fun w hw => hall w (by simp [hw])) ha0 ha1 ham

/-- C9: both healing applications of the character store preserve the HP
invariant.  For every character with `currentHP` in `[0, maxHP]`:
spending a hit die leaves `currentHP` in `[0, maxHP]` for every rolled
value (the healing `max(1, roll + conMod)` is clamped to `maxHP`), and
applying item effects whose heal values are nonnegative leaves
`currentHP` in `[0, maxHP]` however large the heal values are; `maxHP`
itself is never modified. -/
theorem C9_healing_clamped (rollOf : Int → Int) (character : StoreCharacter)
    (h0 : 0 ≤ character.currentHP) (h1 : character.currentHP ≤ character.maxHP) :
    (0 ≤ (spendHitDieChar rollOf character).currentHP ∧
      (spendHitDieChar rollOf character).currentHP ≤
        (spendHitDieChar rollOf character).maxHP ∧
      (spendHitDieChar rollOf character).maxHP = character.maxHP) ∧
    (∀ effects : List ItemEffect, (∀ v : Int, ItemEffect.heal v ∈ effects → 0 ≤ v) →
      0 ≤ (applyItemEffects character effects).currentHP ∧
        (applyItemEffects character effects).currentHP ≤
          (applyItemEffects character effects).maxHP ∧
        (applyItemEffects character effects).maxHP = character.maxHP) := by
  constructor
  · unfold spendHitDieChar
    split_ifs with hd hhp
    · exact ⟨h0, h1, rfl⟩
    · exact ⟨h0, h1, rfl⟩
    · refine ⟨?_, ?_, rfl⟩
      · refine le_min (by omega) ?_
        have hmax := le_max_left (1 : Int)
          (rollOf (match character.hitDiceType with
            | some t => if t = 0 then 8 else t
            | none => 8) + (character.constitution - 10) / 2)
        omega
      · exact min_le_left _ _
  · intro effects hall
    have h := applyItemEffects_bounds character h0 h1 effects character hall h0 h1 rfl
    exact ⟨h.1, by rw [show (applyItemEffects character effects).maxHP = character.maxHP
      from h.2.2]; exact h.2.1, h.2.2⟩

/-- C9, witness: a character at 5/10 HP with two d8 hit dice and
constitution 14; the hit-die roll returns 100 and a heal item restores
1000 HP — in both cases the result is clamped into `[0, 10]`. -/
theorem C9_healing_clamped_witness :
    (0 ≤ (spendHitDieChar (fun _ => 100) ⟨5, 10, 2, some 8, 14⟩).currentHP ∧
      (spendHitDieChar (fun _ => 100) ⟨5, 10, 2, some 8, 14⟩).currentHP ≤
        (spendHitDieChar (fun _ => 100) ⟨5, 10, 2, some 8, 14⟩).maxHP ∧
      (spendHitDieChar (fun _ => 100) ⟨5, 10, 2, some 8, 14⟩).maxHP =
        (StoreCharacter.mk 5 10 2 (some 8) 14).maxHP) ∧
    (∀ effects : List ItemEffect, (∀ v : Int, ItemEffect.heal v ∈ effects → 0 ≤ v) →
      0 ≤ (applyItemEffects ⟨5, 10, 2, some 8, 14⟩ effects).currentHP ∧
        (applyItemEffects ⟨5, 10, 2, some 8, 14⟩ effects).currentHP ≤
          (applyItemEffects ⟨5, 10, 2, some 8, 14⟩ effects).maxHP ∧
        (applyItemEffects ⟨5, 10, 2, some 8, 14⟩ effects).maxHP =
          (StoreCharacter.mk 5 10 2 (some 8) 14).maxHP) :=
  C9_healing_clamped (fun _ => 100) ⟨5, 10, 2, some 8, 14⟩ (by decide) (by decide)
